import Mathlib

/-!
Formal model of the LLM request-gating subsystem of this repository
(`src/llm.js`, plus the serialization latch `withLLMGate` of `src/server.js`).

The JavaScript module keeps three pieces of process-global mutable state:
a request-per-minute window `_rpmTimestamps`, a token-per-minute window
`_tpmEvents`, and a cooldown instant `_cooldownUntil`.  The blocking gates
`tpmGate` and `rpmGate` are infinite `for (;;)` loops whose single
iteration either admits the caller (mutating the corresponding window) or
sleeps a bounded amount and retries.  We embed one loop iteration of each
gate as a pure step function over the explicit state, with the current
clock instant `now` passed as an argument (the JS code re-reads
`Date.now()` inside one iteration; we model one iteration as happening at
one instant, which is the standard shallow embedding of event-loop code).
Timestamps and durations are naturals (milliseconds).  JS subtraction
`now - ts` can be negative when `ts > now`; every place the model uses it
compares the result against a positive bound in a way that coincides with
truncated natural subtraction, as noted at each definition.

Error objects thrown by the provider client are embedded as a structure
holding exactly the fields `llm.js` reads through optional chaining; an
absent (`undefined`) field is `none`.  Loose JS values that can be a
number, `NaN`, or `null`/`undefined` are embedded as `JsVal`.
-/

namespace LlmGate

/-! ### JavaScript value helpers -/

/-- Result of a JS numeric expression that can also be `null`/`undefined`
or `NaN`: `nullish` models both nullish values (the module never
distinguishes them), `nan` models `NaN`. -/
inductive JsVal where
  | nullish
  | nan
  | num (n : Nat)
  deriving DecidableEq

/-- JS nullish coalescing `a ?? b` on `JsVal`: only `null`/`undefined`
fall through (in particular `NaN` does not). -/
def jsNullish (a b : JsVal) : JsVal :=
  match a with
  | .nullish => b
  | v => v

/-- JS nullish coalescing `a ?? b` on possibly-absent strings: an empty
string is not nullish and is kept. -/
def jsNullishOpt (a b : Option String) : Option String :=
  match a with
  | some s => some s
  | none => b

/-- JS `a || b` on possibly-absent strings: the empty string is falsy and
falls through to `b`. -/
def jsOrStr (a b : Option String) : Option String :=
  match a with
  | some s => if s ≠ "" then some s else b
  | none => b

/-- JS `a || b` on possibly-absent numbers: `0` is falsy and falls
through to `b`. -/
def jsOrNat (a b : Option Nat) : Option Nat :=
  match a with
  | some n => if n ≠ 0 then some n else b
  | none => b

/-- Leading- and trailing-whitespace trim on a character list, the model
of `String.prototype.trim`. -/
def jsTrimChars (cs : List Char) : List Char :=
  ((cs.dropWhile Char.isWhitespace).reverse.dropWhile Char.isWhitespace).reverse

/-- JS `String.prototype.trim`. -/
def jsTrim (s : String) : String :=
  String.mk (jsTrimChars s.toList)

/-- Decimal value of a digit run. -/
def digitsToNat (ds : List Char) : Nat :=
  ds.foldl (fun a c => a * 10 + (c.toNat - '0'.toNat)) 0

/-- Model of the JS `Number(string)` builtin on the string shapes this
module feeds it: after trimming, the empty string is `0`, a run of
decimal digits is its value, and any other string is `NaN` (signs,
fractions and exponents never reach `Number` here, as the only sources
are `retry-after` header values and digit runs captured by a `\d+`
regex group). -/
def jsNumber (s : String) : JsVal :=
  let t := jsTrimChars s.toList
  if t.isEmpty then .num 0
  else if t.all Char.isDigit then .num (digitsToNat t)
  else .nan

/-- Lower-casing of a string, the model of `toLowerCase` on the ASCII
messages the module matches against. -/
def toLowerStr (s : String) : String :=
  String.mk (s.toList.map Char.toLower)

/-- Whether `needle` occurs contiguously inside the second list; the
model of `String.prototype.includes`. -/
def listHasSub (needle : List Char) : List Char → Bool
  | [] => needle.isEmpty
  | c :: rest => needle.isPrefixOf (c :: rest) || listHasSub needle rest

/-- JS `hay.includes(needle)`. -/
def strHasSub (hay needle : String) : Bool :=
  listHasSub needle.toList hay.toList

/-! ### Token estimator (`estimateTokensFromText`, `buildTokenCost`) -/

/-- Model of `estimateTokensFromText`: a falsy argument (absent or empty
string) yields 0, otherwise `Math.ceil(length / 4)`. -/
def estimateTokensFromText (s : Option String) : Nat :=
  match s with
  | none => 0
  | some str => if str = "" then 0 else (str.length + 3) / 4

/-- Model of `buildTokenCost`: estimated input tokens plus the requested
output budget (`Math.max(0, max_tokens)` is the identity on naturals). -/
def buildTokenCost (system user : Option String) (max_tokens : Nat) : Nat :=
  estimateTokensFromText system + estimateTokensFromText user + max_tokens

/-! ### Rate state and gates (`_tpmPrune`, `tpmGate`, `rpmGate`) -/

/-- The sliding-window width, `WINDOW = 60_000` ms in both gates. -/
def WINDOW_MS : Nat := 60000

/-- Default request-per-minute ceiling (`OPENAI_RPM_LIMIT`). -/
def OPENAI_RPM_LIMIT : Nat := 3

/-- Default token-per-minute ceiling (`OPENAI_TPM_LIMIT`). -/
def OPENAI_TPM_LIMIT : Nat := 12000

/-- One `_tpmEvents` entry: an admission instant and its token cost. -/
structure TpmEvent where
  ts : Nat
  tokens : Nat
  deriving DecidableEq

/-- Model of `_tpmPrune`: shift entries from the front while
`now - e.ts >= WINDOW`.  (For `e.ts > now` the JS difference is negative
and the entry is kept; truncated subtraction gives `0 < WINDOW`, likewise
kept.) -/
def tpmPrune (now : Nat) (evs : List TpmEvent) : List TpmEvent :=
  evs.dropWhile (fun e => decide (WINDOW_MS ≤ now - e.ts))

/-- Model of the sum inside `_tpmUsedNow`:
`_tpmEvents.reduce((s, e) => s + e.tokens, 0)`. -/
def tpmUsed (evs : List TpmEvent) : Nat :=
  evs.foldl (fun s e => s + e.tokens) 0

/-- Outcome of one iteration of the `tpmGate` loop: either the call is
admitted (with the new window contents) or the loop sleeps `ms` and
retries (with the pruned window contents).  The loop has no rejecting
exit. -/
inductive TpmStepRes where
  | grant (evs : List TpmEvent)
  | wait (ms : Nat) (evs : List TpmEvent)
  deriving DecidableEq

/-- One iteration of the `tpmGate` loop body at instant `now`: prune
(`_tpmPrune()`), prune again and sum (`_tpmUsedNow()`), then either push
the event and return, or compute `nextFreeMs` from the oldest remaining
entry (250 ms when the window is empty) and sleep
`min nextFreeMs 1500`.  (`Math.max(0, WINDOW - (now - ts))` coincides
with the truncated-subtraction value after `min _ 1500` for every `ts`,
since a kept entry with `ts > now` yields at least `WINDOW` on both
readings.) -/
def tpmGateStep (now needed limit : Nat) (evs : List TpmEvent) : TpmStepRes :=
  let evs1 := tpmPrune now evs
  let evs2 := tpmPrune now evs1
  let used := tpmUsed evs2
  if used + needed ≤ limit then
    .grant (evs2 ++ [⟨now, needed⟩])
  else
    let nextFreeMs := match evs2 with
      | e0 :: _ => max 0 (WINDOW_MS - (now - e0.ts))
      | [] => 250
    .wait (min nextFreeMs 1500) evs2

/-- Model of the prune loop on `_rpmTimestamps`: shift while
`now - ts >= WINDOW`. -/
def rpmPrune (now : Nat) (ts : List Nat) : List Nat :=
  ts.dropWhile (fun t => decide (WINDOW_MS ≤ now - t))

/-- Model of `getCooldownMs`: `Math.max(0, _cooldownUntil - now)`. -/
def getCooldownMs (now cooldownUntil : Nat) : Nat :=
  max 0 (cooldownUntil - now)

/-- Outcome of one iteration of the `rpmGate` loop: sleep because of the
global cooldown (windows untouched), grant (recording a timestamp), or
sleep until the oldest timestamp leaves the window (window pruned).  The
loop has no rejecting exit. -/
inductive RpmStepRes where
  | cooldown (sleepMs : Nat)
  | grant (ts : List Nat)
  | wait (sleepMs : Nat) (ts : List Nat)
  deriving DecidableEq

/-- One iteration of the `rpmGate` loop body at instant `now`: first the
cooldown check (sleep `min cd 1000` and retry without touching the
window), then prune, then either record `now` when the in-window count is
strictly below `limit`, or sleep
`Math.max(50, WINDOW - (now - oldest) + 30)`.  The `[]` wait case is
unreachable for a positive `limit` (JS would compute a `NaN` timeout,
i.e. sleep 0). -/
def rpmGateStep (now cooldownUntil limit : Nat) (ts : List Nat) : RpmStepRes :=
  let cd := getCooldownMs now cooldownUntil
  if cd > 0 then
    .cooldown (min cd 1000)
  else
    let ts1 := rpmPrune now ts
    if ts1.length < limit then
      .grant (ts1 ++ [now])
    else
      let waitMs := match ts1 with
        | t0 :: _ => max 50 (WINDOW_MS - (now - t0) + 30)
        | [] => 0
      .wait waitMs ts1

/-- The module-global gate state: the two windows and the cooldown
deadline (`_cooldownUntil`, initially 0). -/
structure GateState where
  tpmEvents : List TpmEvent
  rpmTimestamps : List Nat
  cooldownUntil : Nat
  deriving DecidableEq

/-- Progress of one caller through the admission sequence of `askLLM`,
`askLLMJson` and `askLLMVision`, which all run
`await tpmGate(tokensNeeded); await rpmGate();` in that order. -/
inductive AdmissionPhase where
  | tpmPhase
  | rpmPhase
  | admitted
  deriving DecidableEq

/-- One scheduler step of a single caller inside the admission sequence
at instant `now`: in the token phase run one `tpmGate` iteration, in the
request phase run one `rpmGate` iteration; the third component is the
sleep the caller performs before its next step. -/
def admissionStep (now needed tpmLimit rpmLimit : Nat) :
    AdmissionPhase → GateState → AdmissionPhase × GateState × Nat
  | .tpmPhase, st =>
    match tpmGateStep now needed tpmLimit st.tpmEvents with
    | .grant evs' => (.rpmPhase, { st with tpmEvents := evs' }, 0)
    | .wait d evs' => (.tpmPhase, { st with tpmEvents := evs' }, d)
  | .rpmPhase, st =>
    match rpmGateStep now st.cooldownUntil rpmLimit st.rpmTimestamps with
    | .cooldown d => (.rpmPhase, st, d)
    | .grant ts' => (.admitted, { st with rpmTimestamps := ts' }, 0)
    | .wait d ts' => (.rpmPhase, { st with rpmTimestamps := ts' }, d)
  | .admitted, st => (.admitted, st, 0)

/-- Token windows reachable from the empty initial window through
`tpmGate` admissions (at arbitrary instants and costs) and through the
lazy prunes performed by any reader (`_tpmPrune` runs inside
`_tpmUsedNow` and `getTpmState` as well). -/
inductive TpmReach (limit : Nat) : List TpmEvent → Prop
  | init : TpmReach limit []
  | grant (now needed : Nat) (evs evs' : List TpmEvent) :
      TpmReach limit evs → tpmGateStep now needed limit evs = .grant evs' →
      TpmReach limit evs'
  | prune (now : Nat) (evs : List TpmEvent) :
      TpmReach limit evs → TpmReach limit (tpmPrune now evs)

/-- Request windows reachable from the empty initial window through
`rpmGate` admissions (under an arbitrary cooldown state) and lazy
prunes (`getRpmState` also prunes in place). -/
inductive RpmReach (limit : Nat) : List Nat → Prop
  | init : RpmReach limit []
  | grant (now cooldownUntil : Nat) (ts ts' : List Nat) :
      RpmReach limit ts → rpmGateStep now cooldownUntil limit ts = .grant ts' →
      RpmReach limit ts'
  | prune (now : Nat) (ts : List Nat) :
      RpmReach limit ts → RpmReach limit (rpmPrune now ts)

/-! ### Provider errors, classification, retry-after extraction -/

/-- Shape of a thrown provider error, holding exactly the fields
`llm.js` reads through optional chaining: `e?.status`,
`e?.response?.status`, `e?.response?.headers?.['retry-after']`,
`e?.headers?.['retry-after']`, `e?.response?.data?.error?.code`,
`e?.response?.data?.error?.type`, `e?.response?.data?.error?.message`,
`e?.code`, `e?.message`.  `none` models an absent (`undefined`) field. -/
structure LLMError where
  status : Option Nat
  respStatus : Option Nat
  respHeaderRetryAfter : Option String
  headerRetryAfter : Option String
  respErrorCode : Option String
  respErrorType : Option String
  respErrorMessage : Option String
  code : Option String
  message : Option String
  deriving DecidableEq

/-- An error with every field absent; concrete errors are built from it
by structure update. -/
def baseError : LLMError :=
  ⟨none, none, none, none, none, none, none, none, none⟩

/-- Model of `e?.status || e?.response?.status` (a zero status, were one
to occur, is falsy and falls through, like in JS). -/
def errStatus (e : LLMError) : Option Nat :=
  jsOrNat e.status e.respStatus

/-- The statuses `withRetry` treats as transient:
`[408, 409, 500, 502, 503, 504]`. -/
def TRANSIENT_STATUSES : List Nat := [408, 409, 500, 502, 503, 504]

/-- Model of the `retriable` test inside `withRetry`: the status is in
the transient list, or the error code is `ETIMEDOUT` or `ECONNRESET`
(an absent status is not in the list, as `includes(undefined)` is
false). -/
def retriable (e : LLMError) : Bool :=
  (match errStatus e with
   | some s => decide (s ∈ TRANSIENT_STATUSES)
   | none => false)
  || e.code == some "ETIMEDOUT" || e.code == some "ECONNRESET"

/-- Model of `e?.response?.data?.error?.code || e?.code || ''`. -/
def err429Code (e : LLMError) : String :=
  (jsOrStr e.respErrorCode e.code).getD ""

/-- Model of `e?.response?.data?.error?.type || ''`. -/
def err429Type (e : LLMError) : String :=
  e.respErrorType.getD ""

/-- Model of
`(e?.response?.data?.error?.message || e?.message || '').toLowerCase()`. -/
def err429Msg (e : LLMError) : String :=
  toLowerStr ((jsOrStr e.respErrorMessage e.message).getD "")

/-- Model of `classify429`: the machine-readable code/type field decides
first; otherwise a lowercase substring match on the message looks for
billing phrases; anything else is rate-limit throttling. -/
def classify429 (e : LLMError) : String :=
  if err429Code e = "insufficient_quota" ∨ err429Type e = "insufficient_quota" then
    "insufficient_quota"
  else if strHasSub (err429Msg e) "insufficient quota"
      || strHasSub (err429Msg e) "exceeded your current quota"
      || strHasSub (err429Msg e) "billing" then
    "insufficient_quota"
  else
    "rate_limit"

/-- The literal scanned for by the regex `/try again in\s+(\d+)s/i`. -/
def tryAgainLit : List Char := "try again in".toList

/-- Case-insensitive character comparison, for the `i` regex flag. -/
def charIEq (a b : Char) : Bool := a.toLower == b.toLower

/-- Case-insensitive literal match at the head of `cs`, returning the
remainder on success. -/
def litIMatch : List Char → List Char → Option (List Char)
  | [], cs => some cs
  | _ :: _, [] => none
  | l :: ls, c :: cs => if charIEq l c then litIMatch ls cs else none

/-- Match of the regex tail `\s+(\d+)s` at the head of `cs`: at least one
whitespace, a nonempty greedy digit run (the capture), then `s` or `S`. -/
def parseWsDigitsS (cs : List Char) : Option Nat :=
  match cs with
  | [] => none
  | c :: rest =>
    if c.isWhitespace then
      let rest2 := rest.dropWhile Char.isWhitespace
      let ds := rest2.takeWhile Char.isDigit
      if ds.isEmpty then none
      else
        match rest2.drop ds.length with
        | c2 :: _ => if charIEq c2 's' then some (digitsToNat ds) else none
        | [] => none
    else none

/-- Leftmost match of `/try again in\s+(\d+)s/i`, returning the captured
number. -/
def findTryAgain : List Char → Option Nat
  | [] => none
  | c :: rest =>
    match (litIMatch tryAgainLit (c :: rest)).bind parseWsDigitsS with
    | some n => some n
    | none => findTryAgain rest

/-- The message-regex arm of `parseRetryAfter`:
`String(e?.message || '').match(/try again in\s+(\d+)s/i)`, yielding the
captured number or `null`. -/
def retryAfterFromMsg (e : LLMError) : JsVal :=
  match findTryAgain (e.message.getD "").toList with
  | some n => .num n
  | none => .nullish

/-- Model of `parseRetryAfter`: a truthy `retry-after` response header is
passed to `Number` (even when that yields `NaN`); otherwise the message
is scanned for the `try again in Ns` pattern. -/
def parseRetryAfter (e : LLMError) : JsVal :=
  match e.respHeaderRetryAfter with
  | some hdr => if hdr ≠ "" then jsNumber hdr else retryAfterFromMsg e
  | none => retryAfterFromMsg e

/-- Model of the retry-after computation in `askLLM`'s 429 handler:
`hdr = e?.response?.headers?.['retry-after'] ?? e?.headers?.['retry-after'] ?? null`
followed by `(hdr ? Number(hdr) : null) ?? parseRetryAfter(e) ?? 30`. -/
def askLLMRetryAfterSec (e : LLMError) : JsVal :=
  let hdr := jsNullishOpt e.respHeaderRetryAfter e.headerRetryAfter
  let hv := match hdr with
    | some h => if h ≠ "" then jsNumber h else .nullish
    | none => .nullish
  jsNullish hv (jsNullish (parseRetryAfter e) (.num 30))

/-- Model of `parseRetryAfter(e) ?? 30`, the retry-after computation in
the 429 handlers of `askLLMJson` and `askLLMVision`. -/
def retryAfterOr30 (e : LLMError) : JsVal :=
  jsNullish (parseRetryAfter e) (.num 30)

/-- Model of `_cooldownUntil = Date.now() + (retryAfterSec * 1000)`; a
`NaN` seconds value poisons the deadline (the `nullish` case cannot arise,
as both cascades end in `?? 30`). -/
def jsCooldownFrom (now : Nat) : JsVal → JsVal
  | .num n => .num (now + n * 1000)
  | _ => .nan

/-! ### The bounded retry loop (`withRetry`) -/

/-- One run of the `withRetry` loop over a script of provider outcomes
(`script i` is what the `i`-th invocation of `fn` returns or throws) and
a jitter stream (`jitter i` models `Math.floor(Math.random() * 250)` on
iteration `i`).  The second index is the remaining retry budget
`retries - i`, so `0` mirrors the `i === retries` exit of the `for`
loop.  Returns the final outcome, the number of invocations performed,
and the backoff delays slept (`baseDelay * 2 ** i + jitter`).  The JS
argument-normalization prologue of `withRetry` (which only resolves `fn`,
`retries` and `baseDelay` from the two calling conventions) is elided:
the resolved values are taken as arguments. -/
def withRetryAux {R : Type} (script : Nat → Except LLMError R) (jitter : Nat → Nat)
    (baseDelay : Nat) : Nat → Nat → Except LLMError R × Nat × List Nat
  | i, 0 =>
    match script i with
    | .ok r => (.ok r, i + 1, [])
    | .error e => (.error e, i + 1, [])
  | i, remaining + 1 =>
    match script i with
    | .ok r => (.ok r, i + 1, [])
    | .error e =>
      if retriable e then
        let w := baseDelay * 2 ^ i + jitter i
        let rest := withRetryAux script jitter baseDelay (i + 1) remaining
        (rest.1, rest.2.1, w :: rest.2.2)
      else
        (.error e, i + 1, [])

/-- `withRetry` with the resolved configuration: start at attempt 0 with
the full retry budget. -/
def withRetry {R : Type} (script : Nat → Except LLMError R) (jitter : Nat → Nat)
    (retries baseDelay : Nat) : Except LLMError R × Nat × List Nat :=
  withRetryAux script jitter baseDelay 0 retries

/-! ### Provider responses and JSON salvage -/

/-- `message` object of a chat-completion choice. -/
structure ChatMessage where
  content : Option String
  deriving DecidableEq

/-- One entry of `resp.choices`. -/
structure ChatChoice where
  message : Option ChatMessage
  deriving DecidableEq

/-- `resp.usage`, when the provider reports token counts. -/
structure ChatUsage where
  prompt_tokens : Nat
  completion_tokens : Nat
  deriving DecidableEq

/-- A successful provider response as read by the module. -/
structure ChatResponse where
  choices : List ChatChoice
  usage : Option ChatUsage
  deriving DecidableEq

/-- Model of the optional chain `resp?.choices?.[0]?.message?.content`. -/
def contentOfResp (resp : ChatResponse) : Option String :=
  match resp.choices with
  | [] => none
  | c :: _ =>
    match c.message with
    | none => none
    | some m => m.content

/-- Model of `resp?.choices?.[0]?.message?.content?.trim() || null`, the
content extraction of `askLLM` and `askLLMVision`: an absent chain link
or a whitespace-only content yields `null`. -/
def respContentOrNull (resp : ChatResponse) : Option String :=
  match contentOfResp resp with
  | none => none
  | some s => if jsTrim s = "" then none else some (jsTrim s)

/-- Model of `resp?.choices?.[0]?.message?.content || ''`, the text
extraction of `askLLMJson`. -/
def respText (resp : ChatResponse) : String :=
  (contentOfResp resp).getD ""

/-- JSON values, the model of what `JSON.parse` returns. -/
inductive JVal where
  | jnull
  | jbool (b : Bool)
  | jnum (n : Nat)
  | jstr (s : String)
  | jarr (xs : List JVal)
  | jobj (fields : List (String × JVal))

/-- String-body scanner: characters of a JSON string after the opening
quote, up to the closing quote.  A backslash makes the parse fail (no
escape sequence reaches this model through the inputs considered). -/
def parseJStrAux (acc : List Char) : List Char → Option (List Char × List Char)
  | [] => none
  | c :: rest =>
    if c = '"' then some (acc.reverse, rest)
    else if c = '\\' then none
    else parseJStrAux (c :: acc) rest

/-- Greedy digit-run parse for a JSON number (nonnegative integers, the
only numeric shape in the inputs considered; a further `.`, sign or
exponent makes the surrounding parse fail rather than mis-read). -/
def parseDigitRun (cs : List Char) : Option (Nat × List Char) :=
  let ds := cs.takeWhile Char.isDigit
  if ds.isEmpty then none else some (digitsToNat ds, cs.drop ds.length)

/-- JSON whitespace skip. -/
def skipWs (cs : List Char) : List Char :=
  cs.dropWhile Char.isWhitespace

/-- What the recursive JSON parser is currently reading: a value, the
remainder of an array after `[`, or the remainder of an object after
an opening brace. -/
inductive PTask where
  | val
  | arrRest (acc : List JVal)
  | objRest (acc : List (String × JVal))

/-- Recursive-descent JSON parser, fuelled so that the recursion is
structural; `jsonParse` supplies fuel ample for its input. -/
def pj : Nat → PTask → List Char → Option (JVal × List Char)
  | 0, _, _ => none
  | fuel + 1, .val, cs =>
    match skipWs cs with
    | [] => none
    | c :: rest =>
      if c = '{' then pj fuel (.objRest []) rest
      else if c = '[' then pj fuel (.arrRest []) rest
      else if c = '"' then
        match parseJStrAux [] rest with
        | some (s, r) => some (.jstr (String.mk s), r)
        | none => none
      else if c.isDigit then
        match parseDigitRun (c :: rest) with
        | some (n, r) => some (.jnum n, r)
        | none => none
      else if ("true".toList).isPrefixOf (c :: rest) then
        some (.jbool true, (c :: rest).drop 4)
      else if ("false".toList).isPrefixOf (c :: rest) then
        some (.jbool false, (c :: rest).drop 5)
      else if ("null".toList).isPrefixOf (c :: rest) then
        some (.jnull, (c :: rest).drop 4)
      else none
  | fuel + 1, .arrRest acc, cs =>
    match skipWs cs with
    | ']' :: rest => if acc.isEmpty then some (.jarr [], rest) else none
    | cs' =>
      match pj fuel .val cs' with
      | none => none
      | some (v, r) =>
        match skipWs r with
        | ',' :: r2 => pj fuel (.arrRest (acc ++ [v])) r2
        | ']' :: r2 => some (.jarr (acc ++ [v]), r2)
        | _ => none
  | fuel + 1, .objRest acc, cs =>
    match skipWs cs with
    | '}' :: rest => if acc.isEmpty then some (.jobj [], rest) else none
    | '"' :: rest =>
      match parseJStrAux [] rest with
      | none => none
      | some (k, r) =>
        match skipWs r with
        | ':' :: r2 =>
          match pj fuel .val r2 with
          | none => none
          | some (v, r3) =>
            match skipWs r3 with
            | ',' :: r4 => pj fuel (.objRest (acc ++ [(String.mk k, v)])) r4
            | '}' :: r4 => some (.jobj (acc ++ [(String.mk k, v)]), r4)
            | _ => none
        | _ => none
    | _ => none

/-- Model of strict `JSON.parse`: parse one value and require only
whitespace after it.  The fuel `2 * length + 2` bounds the parser's
recursion depth, which consumes at least one character every two
steps. -/
def jsonParse (cs : List Char) : Option JVal :=
  match pj (2 * cs.length + 2) .val cs with
  | some (v, rest) => if (skipWs rest).isEmpty then some v else none
  | none => none

/-- Suffix of the character list starting at its first opening brace. -/
def dropToBrace : List Char → Option (List Char)
  | [] => none
  | c :: rest => if c = '{' then some (c :: rest) else dropToBrace rest

/-- Model of `text.match(/\x7b[\s\S]*\x7d$/)`: the end-anchored `$`
forces the closing brace to be the very last character of the string; on
success the (leftmost, greedy) match runs from the first opening brace to
that final character. -/
def braceTailMatch (cs : List Char) : Option (List Char) :=
  if cs.getLast? = some '}' then dropToBrace cs else none

/-- Model of the response-text processing of `askLLMJson`: strict
`JSON.parse`, then the trailing-brace salvage, then `null`. -/
def jsonExtract (text : String) : Option JVal :=
  match jsonParse text.toList with
  | some v => some v
  | none =>
    match braceTailMatch text.toList with
    | some sub => jsonParse sub
    | none => none

/-! ### The three dispatch operations -/

/-- Value returned to the caller by a dispatch operation: a text
completion, a parsed JSON object, `null`, or one of the two structured
failure objects (`\x7b _error, status, retryAfterSec? \x7d`). -/
inductive AskResult where
  | text (s : String)
  | obj (v : JVal)
  | null
  | signal (tag : String) (status : Nat) (retryAfterSec : Option JsVal)

/-- Model of `askLLM` after admission: run the provider call under
`withRetry(run, \x7b retries: 2, baseDelay: 800 \x7d)`, extract the
trimmed content (or `null`), and on a thrown error classify: a 429 either
returns the quota signal (cooldown untouched) or arms the cooldown and
returns the rate-limit signal; any other error returns `null`.  Returns
the caller-visible result, the number of provider invocations, and the
cooldown deadline after the call (`cd` is the deadline before it). -/
def askLLMDispatch (now : Nat) (cd : JsVal)
    (script : Nat → Except LLMError ChatResponse) (jitter : Nat → Nat) :
    AskResult × Nat × JsVal :=
  match withRetryAux script jitter 800 0 2 with
  | (.ok resp, calls, _) =>
    ((match respContentOrNull resp with
      | some s => .text s
      | none => .null), calls, cd)
  | (.error e, calls, _) =>
    if errStatus e = some 429 then
      if classify429 e = "insufficient_quota" then
        (.signal "insufficient_quota" 429 none, calls, cd)
      else
        let r := askLLMRetryAfterSec e
        (.signal "rate_limit" 429 (some r), calls, jsCooldownFrom now r)
    else
      (.null, calls, cd)

/-- Model of `askLLMJson` after admission: like `askLLMDispatch` but the
success path parses the body (strict parse, then brace salvage, then
`null`) and the rate-limit arm computes `parseRetryAfter(e) ?? 30`. -/
def askLLMJsonDispatch (now : Nat) (cd : JsVal)
    (script : Nat → Except LLMError ChatResponse) (jitter : Nat → Nat) :
    AskResult × Nat × JsVal :=
  match withRetryAux script jitter 800 0 2 with
  | (.ok resp, calls, _) =>
    ((match jsonExtract (respText resp) with
      | some v => .obj v
      | none => .null), calls, cd)
  | (.error e, calls, _) =>
    if errStatus e = some 429 then
      if classify429 e = "insufficient_quota" then
        (.signal "insufficient_quota" 429 none, calls, cd)
      else
        let r := retryAfterOr30 e
        (.signal "rate_limit" 429 (some r), calls, jsCooldownFrom now r)
    else
      (.null, calls, cd)

/-- Model of `askLLMVision` after admission: content extraction as in
`askLLM`, 429 handling as in `askLLMJson`. -/
def askLLMVisionDispatch (now : Nat) (cd : JsVal)
    (script : Nat → Except LLMError ChatResponse) (jitter : Nat → Nat) :
    AskResult × Nat × JsVal :=
  match withRetryAux script jitter 800 0 2 with
  | (.ok resp, calls, _) =>
    ((match respContentOrNull resp with
      | some s => .text s
      | none => .null), calls, cd)
  | (.error e, calls, _) =>
    if errStatus e = some 429 then
      if classify429 e = "insufficient_quota" then
        (.signal "insufficient_quota" 429 none, calls, cd)
      else
        let r := retryAfterOr30 e
        (.signal "rate_limit" 429 (some r), calls, jsCooldownFrom now r)
    else
      (.null, calls, cd)

/-! ### The serialization latch (`withLLMGate` in `server.js`) -/

/-- Model of `waitFree`: poll the advisory `llmBusy` flag every 120 ms
while it is set and less than 8000 ms have elapsed since the start of the
wait.  `busySig t` is the flag's value at instant `t`; the result is the
instant the wait ends. -/
def waitFreeFrom (busySig : Nat → Bool) (start : Nat) (elapsed : Nat) : Nat :=
  if h : busySig (start + elapsed) = true ∧ elapsed < 8000 then
    waitFreeFrom busySig start (elapsed + 120)
  else
    start + elapsed
termination_by 8000 - elapsed
decreasing_by omega

/-- Model of `withLLMGate`: wait for the latch (bounded by the ceiling),
set `llmBusy`, run the guarded call, and clear `llmBusy` in the
`finally` on both the normal and the throwing exit path.  Returns the
instant the slot was taken, the latch value after exit, and the guarded
call's outcome. -/
def withLLMGate {E A : Type} (busySig : Nat → Bool) (start : Nat)
    (fn : Except E A) : Nat × Bool × Except E A :=
  let t := waitFreeFrom busySig start 0
  match fn with
  | .ok a => (t, false, .ok a)
  | .error e => (t, false, .error e)

/-! ### Observers used by the theorem statements -/

/-- Whether a `tpmGate` iteration blocked with a sleep of at most
1500 ms (it never rejects). -/
def TpmStepRes.isBoundedWait : TpmStepRes → Bool
  | .wait d _ => decide (d ≤ 1500)
  | .grant _ => false

/-- Whether an `rpmGate` iteration blocked on a full window. -/
def RpmStepRes.isWait : RpmStepRes → Bool
  | .wait _ _ => true
  | .cooldown _ => false
  | .grant _ => false

/-- Whether a successful response carries no usable content: the
optional chain is broken or the content trims to the empty string. -/
def respBlank (resp : ChatResponse) : Bool :=
  match contentOfResp resp with
  | none => true
  | some s => jsTrim s == ""

/-! ### Concrete inputs used by witnesses and counterexamples -/

/-- A plain 503 as thrown by the provider client. -/
def err503 : LLMError :=
  { baseError with status := some 503, message := some "Service Unavailable" }

/-- A non-retriable, non-429 failure. -/
def err400 : LLMError :=
  { baseError with status := some 400, message := some "Bad request" }

/-- A throttling 429 carrying a `retry-after: 7` response header. -/
def errRate7 : LLMError :=
  { baseError with
      status := some 429
      respHeaderRetryAfter := some "7"
      message := some "Rate limit reached" }

/-- A throttling 429 whose only hint is the message pattern. -/
def errRateMsg : LLMError :=
  { baseError with
      status := some 429
      message := some "Rate limit reached, try again in 20s." }

/-- A throttling 429 carrying no hint at all. -/
def errRateBare : LLMError :=
  { baseError with status := some 429, message := some "Rate limit reached" }

/-- A quota-exhaustion 429, flagged by the machine-readable code. -/
def errQuota : LLMError :=
  { baseError with
      status := some 429
      respErrorCode := some "insufficient_quota"
      message := some "You exceeded your current quota." }

/-- A response whose parsed body is irrelevant to the retry count. -/
def okResp : ChatResponse :=
  ⟨[⟨some ⟨some "\x7b\"ok\":true\x7d"⟩⟩], some ⟨12, 5⟩⟩

/-- A response whose content is whitespace only. -/
def blankResp : ChatResponse :=
  ⟨[⟨some ⟨some "   "⟩⟩], none⟩

/-- Script throwing 503 on the first two invocations, then succeeding. -/
def script503 : Nat → Except LLMError ChatResponse :=
  fun n => if n < 2 then .error err503 else .ok okResp

/-- Script that always throws the given error. -/
def scriptErr (e : LLMError) : Nat → Except LLMError ChatResponse :=
  fun _ => .error e

/-- Script that always succeeds with the given response. -/
def scriptOk (resp : ChatResponse) : Nat → Except LLMError ChatResponse :=
  fun _ => .ok resp

/-- The zero jitter stream. -/
def noJitter : Nat → Nat := fun _ => 0

/-- The response body of the salvage round-trip, with the trailing
space: `prefix text \x7b"a":1,"b":[2,3]\x7d `. -/
def salvageBodySp : String := "prefix text \x7b\"a\":1,\"b\":[2,3]\x7d "

/-- The same body without the trailing space. -/
def salvageBody : String := "prefix text \x7b\"a\":1,\"b\":[2,3]\x7d"

/-- The object the salvage path is expected to produce. -/
def salvageObj : JVal :=
  .jobj [("a", .jnum 1), ("b", .jarr [.jnum 2, .jnum 3])]

/-- Response carrying the given body as its content. -/
def bodyResp (s : String) : ChatResponse :=
  ⟨[⟨some ⟨some s⟩⟩], none⟩

/-! ## Helper lemmas -/

theorem dropWhile_idem {α : Type} (p : α → Bool) (l : List α) :
    (l.dropWhile p).dropWhile p = l.dropWhile p := by
  induction l with
  | nil => rfl
  | cons a l ih =>
    by_cases h : p a
    · rw [List.dropWhile_cons_of_pos h]
      exact ih
    · rw [List.dropWhile_cons_of_neg h, List.dropWhile_cons_of_neg h]

theorem lenDropWhile_le {α : Type} (p : α → Bool) (l : List α) :
    (l.dropWhile p).length ≤ l.length := by
  induction l with
  | nil => simp
  | cons a l ih =>
    by_cases h : p a
    · rw [List.dropWhile_cons_of_pos h]
      exact le_trans ih (by simp)
    · rw [List.dropWhile_cons_of_neg h]

theorem tpmUsed_foldl (a : Nat) (l : List TpmEvent) :
    List.foldl (fun s e => s + e.tokens) a l = a + tpmUsed l := by
  induction l generalizing a with
  | nil => simp [tpmUsed]
  | cons e l ih =>
    have h1 : List.foldl (fun s e => s + e.tokens) a (e :: l) =
        List.foldl (fun s e => s + e.tokens) (a + e.tokens) l := rfl
    have h2 : tpmUsed (e :: l) =
        List.foldl (fun s e => s + e.tokens) (0 + e.tokens) l := rfl
    rw [h1, h2, ih (a + e.tokens), ih (0 + e.tokens)]
    omega

theorem tpmUsed_nil : tpmUsed [] = 0 := rfl

theorem tpmUsed_cons (e : TpmEvent) (l : List TpmEvent) :
    tpmUsed (e :: l) = e.tokens + tpmUsed l := by
  show List.foldl (fun s e => s + e.tokens) 0 (e :: l) = e.tokens + tpmUsed l
  rw [List.foldl_cons, tpmUsed_foldl]
  omega

theorem tpmUsed_append (l₁ l₂ : List TpmEvent) :
    tpmUsed (l₁ ++ l₂) = tpmUsed l₁ + tpmUsed l₂ := by
  induction l₁ with
  | nil => simp [tpmUsed]
  | cons e l ih =>
    simp only [List.cons_append, tpmUsed_cons, ih]
    omega

theorem tpmUsed_dropWhile_le (p : TpmEvent → Bool) (l : List TpmEvent) :
    tpmUsed (l.dropWhile p) ≤ tpmUsed l := by
  induction l with
  | nil => simp
  | cons e l ih =>
    by_cases h : p e
    · rw [List.dropWhile_cons_of_pos h, tpmUsed_cons]
      omega
    · rw [List.dropWhile_cons_of_neg h]

theorem tpmPrune_idem (now : Nat) (evs : List TpmEvent) :
    tpmPrune now (tpmPrune now evs) = tpmPrune now evs :=
  dropWhile_idem _ evs

theorem tpmGateStep_grant_inv (now needed limit : Nat) (evs evs' : List TpmEvent)
    (h : tpmGateStep now needed limit evs = .grant evs') :
    tpmUsed (tpmPrune now evs) + needed ≤ limit ∧
    evs' = tpmPrune now evs ++ [⟨now, needed⟩] := by
  simp only [tpmGateStep, tpmPrune_idem] at h
  split at h
  · next hle => exact ⟨hle, by injection h with h'; exact h'.symm⟩
  · next => exact TpmStepRes.noConfusion h

theorem tpmGateStep_block (now needed limit : Nat) (evs : List TpmEvent)
    (h : limit < tpmUsed (tpmPrune now evs) + needed) :
    (tpmGateStep now needed limit evs).isBoundedWait = true := by
  simp only [tpmGateStep, tpmPrune_idem]
  rw [if_neg (by omega)]
  simp only [TpmStepRes.isBoundedWait]
  exact decide_eq_true (Nat.min_le_right _ _)

theorem tpmReach_used_le (limit : Nat) (evs : List TpmEvent)
    (h : TpmReach limit evs) : tpmUsed evs ≤ limit := by
  induction h with
  | init => simp [tpmUsed]
  | grant now needed evs evs' hr hstep ih =>
    obtain ⟨hle, heq⟩ := tpmGateStep_grant_inv now needed limit evs evs' hstep
    subst heq
    have hx : (⟨now, needed⟩ : TpmEvent).tokens = needed := rfl
    rw [tpmUsed_append, tpmUsed_cons, tpmUsed_nil, hx]
    omega
  | prune now evs hr ih =>
    exact le_trans (tpmUsed_dropWhile_le _ _) ih

theorem rpmGateStep_grant_inv (now cdU limit : Nat) (ts ts' : List Nat)
    (h : rpmGateStep now cdU limit ts = .grant ts') :
    (rpmPrune now ts).length < limit ∧ ts' = rpmPrune now ts ++ [now] := by
  simp only [rpmGateStep] at h
  split at h
  · exact RpmStepRes.noConfusion h
  · split at h
    · next hlt => exact ⟨hlt, by injection h with h'; exact h'.symm⟩
    · next => exact RpmStepRes.noConfusion h

theorem rpmGateStep_block (now cdU limit : Nat) (ts : List Nat)
    (hcd : getCooldownMs now cdU = 0) (hfull : limit ≤ (rpmPrune now ts).length) :
    (rpmGateStep now cdU limit ts).isWait = true := by
  simp only [rpmGateStep]
  rw [if_neg (by omega), if_neg (by omega)]
  rfl

theorem rpmReach_len_le (limit : Nat) (ts : List Nat)
    (h : RpmReach limit ts) : ts.length ≤ limit := by
  induction h with
  | init => simp
  | grant now cdU ts ts' hr hstep ih =>
    obtain ⟨hlt, heq⟩ := rpmGateStep_grant_inv now cdU limit ts ts' hstep
    subst heq
    rw [List.length_append]
    simp only [List.length_cons, List.length_nil]
    omega
  | prune now ts hr ih =>
    exact le_trans (lenDropWhile_le _ _) ih

/-! ## C1 -/

/-- C1: whenever the token gate admits a call, the sum of token costs in
the trailing 60-second window plus the newly requested cost is at most
the TPM ceiling (first two conjuncts: the admission-instant bound and
the recording of the cost); on every window reachable through admissions
and prunes the recorded in-window sum never exceeds the ceiling (first
conjunct); and a request that would exceed the ceiling makes the gate
loop with a sleep bounded by 1500 ms instead of rejecting (last
conjunct). -/
theorem tpm_window_invariant (limit t : Nat) (evsR : List TpmEvent)
    (nowA needA : Nat) (evsA evsA' : List TpmEvent)
    (nowB needB : Nat) (evsB : List TpmEvent)
    (hreach : TpmReach limit evsR)
    (hgrant : tpmGateStep nowA needA limit evsA = .grant evsA')
    (hover : limit < tpmUsed (tpmPrune nowB evsB) + needB) :
    tpmUsed (tpmPrune t evsR) ≤ limit ∧
    (tpmUsed (tpmPrune nowA evsA) + needA ≤ limit ∧
      evsA' = tpmPrune nowA evsA ++ [⟨nowA, needA⟩]) ∧
    (tpmGateStep nowB needB limit evsB).isBoundedWait = true :=
  ⟨le_trans (tpmUsed_dropWhile_le _ _) (tpmReach_used_le limit evsR hreach),
    tpmGateStep_grant_inv nowA needA limit evsA evsA' hgrant,
    tpmGateStep_block nowB needB limit evsB hover⟩

/-- C1 witness: limit 100, an admission of cost 50 into the empty
window, and a blocked request of cost 200. -/
theorem tpm_window_invariant_witness :
    tpmUsed (tpmPrune 5 []) ≤ 100 ∧
    (tpmUsed (tpmPrune 0 []) + 50 ≤ 100 ∧
      ([⟨0, 50⟩] : List TpmEvent) = tpmPrune 0 [] ++ [⟨0, 50⟩]) ∧
    (tpmGateStep 0 200 100 []).isBoundedWait = true :=
  tpm_window_invariant 100 5 [] 0 50 [] [⟨0, 50⟩] 0 200 []
    TpmReach.init rfl (by decide)

/-! ## C2 -/

/-- C2: the number of request timestamps recorded within any trailing
60-second window never exceeds the RPM ceiling on any reachable window
(first conjunct); the gate records a new timestamp exactly when the
pruned in-window count is strictly below the limit (second conjunct);
and with no active cooldown a full window makes the gate block and retry
rather than reject (last conjunct).  `rpmPrune` drops exactly the
entries aged 60 seconds or more, by definition. -/
theorem rpm_window_invariant (limit t : Nat) (tsR : List Nat)
    (nowA cdA : Nat) (tsA tsA' : List Nat)
    (nowB cdB : Nat) (tsB : List Nat)
    (hreach : RpmReach limit tsR)
    (hgrant : rpmGateStep nowA cdA limit tsA = .grant tsA')
    (hcdB : getCooldownMs nowB cdB = 0)
    (hfullB : limit ≤ (rpmPrune nowB tsB).length) :
    (rpmPrune t tsR).length ≤ limit ∧
    ((rpmPrune nowA tsA).length < limit ∧ tsA' = rpmPrune nowA tsA ++ [nowA]) ∧
    (rpmGateStep nowB cdB limit tsB).isWait = true :=
  ⟨le_trans (lenDropWhile_le _ _) (rpmReach_len_le limit tsR hreach),
    rpmGateStep_grant_inv nowA cdA limit tsA tsA' hgrant,
    rpmGateStep_block nowB cdB limit tsB hcdB hfullB⟩

/-- C2 witness: limit 3, an admission into the empty window, and a
blocked attempt against a full window of three in-window timestamps. -/
theorem rpm_window_invariant_witness :
    (rpmPrune 7 []).length ≤ 3 ∧
    ((rpmPrune 0 []).length < 3 ∧ ([0] : List Nat) = rpmPrune 0 [] ++ [0]) ∧
    (rpmGateStep 10 0 3 [0, 1, 2]).isWait = true :=
  rpm_window_invariant 3 7 [] 0 0 [] [0] 10 0 [0, 1, 2]
    RpmReach.init rfl rfl (by decide)

/-! ## C3 -/

/-- C3 counterexample: at instant 0, with the cooldown deadline armed at
100000 (so the current instant is before the deadline), the very first
admission step of a caller runs the token gate and records the token
cost into the token window — the token window is mutated before the
cooldown has elapsed, and the cooldown check is not the first of the
gate's checks. -/
theorem cooldown_not_first_check_cex :
    (0 : Nat) < 100000 ∧
    admissionStep 0 10 12000 3 .tpmPhase ⟨[], [], 100000⟩ =
      (.rpmPhase, ⟨[⟨0, 10⟩], [], 100000⟩, 0) ∧
    ([⟨0, 10⟩] : List TpmEvent) ≠ ([] : List TpmEvent) :=
  ⟨by omega, rfl, by simp⟩

/-- C3 amended: the cooldown deadline is read inside the request-count
gate, which runs after the token gate: while the current instant is
before the deadline that gate sleeps and leaves the whole state — in
particular the request-timestamp window — unmutated (first two
conjuncts), whereas the token gate neither reads the cooldown deadline
nor is stopped by it (last conjunct: its outcome is independent of the
deadline). -/
theorem cooldown_checked_in_rpm_gate (now cdU tpmLimit rpmLimit needed : Nat)
    (ts : List Nat) (st : GateState) (evs : List TpmEvent) (rts : List Nat)
    (c₁ c₂ : Nat) (h : 0 < getCooldownMs now cdU) (hst : st.cooldownUntil = cdU) :
    rpmGateStep now cdU rpmLimit ts = .cooldown (min (getCooldownMs now cdU) 1000) ∧
    admissionStep now needed tpmLimit rpmLimit .rpmPhase st =
      (.rpmPhase, st, min (getCooldownMs now cdU) 1000) ∧
    ((admissionStep now needed tpmLimit rpmLimit .tpmPhase ⟨evs, rts, c₁⟩).1 =
        (admissionStep now needed tpmLimit rpmLimit .tpmPhase ⟨evs, rts, c₂⟩).1 ∧
      (admissionStep now needed tpmLimit rpmLimit .tpmPhase ⟨evs, rts, c₁⟩).2.1.tpmEvents =
        (admissionStep now needed tpmLimit rpmLimit .tpmPhase ⟨evs, rts, c₂⟩).2.1.tpmEvents) := by
  have h1 : ∀ l : List Nat, rpmGateStep now cdU rpmLimit l =
      .cooldown (min (getCooldownMs now cdU) 1000) := by
    intro l
    simp only [rpmGateStep]
    rw [if_pos h]
  refine ⟨h1 ts, ?_, ?_⟩
  · simp only [admissionStep, hst, h1 st.rpmTimestamps]
  · cases htp : tpmGateStep now needed tpmLimit evs <;>
      simp [admissionStep, htp]

/-- C3 amended witness: instant 0, cooldown deadline 5000. -/
theorem cooldown_checked_in_rpm_gate_witness :
    rpmGateStep 0 5000 3 [] = .cooldown (min (getCooldownMs 0 5000) 1000) ∧
    admissionStep 0 10 12000 3 .rpmPhase ⟨[], [], 5000⟩ =
      (.rpmPhase, ⟨[], [], 5000⟩, min (getCooldownMs 0 5000) 1000) ∧
    ((admissionStep 0 10 12000 3 .tpmPhase ⟨[], [], 0⟩).1 =
        (admissionStep 0 10 12000 3 .tpmPhase ⟨[], [], 999999⟩).1 ∧
      (admissionStep 0 10 12000 3 .tpmPhase ⟨[], [], 0⟩).2.1.tpmEvents =
        (admissionStep 0 10 12000 3 .tpmPhase ⟨[], [], 999999⟩).2.1.tpmEvents) :=
  cooldown_checked_in_rpm_gate 0 5000 12000 3 10 [] ⟨[], [], 5000⟩ [] [] 0 999999
    (by decide) rfl

/-! ## Retry-loop lemmas -/

theorem withRetryAux_ok {R : Type} (script : Nat → Except LLMError R)
    (jitter : Nat → Nat) (bd i rem : Nat) (r : R) (hsi : script i = .ok r) :
    withRetryAux script jitter bd i rem = (.ok r, i + 1, []) := by
  cases rem <;> simp [withRetryAux, hsi]

theorem withRetryAux_stop {R : Type} (script : Nat → Except LLMError R)
    (jitter : Nat → Nat) (bd i rem : Nat) (e : LLMError)
    (hsi : script i = .error e) (hretr : retriable e = false) :
    withRetryAux script jitter bd i rem = (.error e, i + 1, []) := by
  cases rem <;> simp [withRetryAux, hsi, hretr]

theorem withRetryAux_retry {R : Type} (script : Nat → Except LLMError R)
    (jitter : Nat → Nat) (bd i rem : Nat) (e : LLMError)
    (hsi : script i = .error e) (hretr : retriable e = true) :
    withRetryAux script jitter bd i (rem + 1) =
      ((withRetryAux script jitter bd (i + 1) rem).1,
       (withRetryAux script jitter bd (i + 1) rem).2.1,
       (bd * 2 ^ i + jitter i) :: (withRetryAux script jitter bd (i + 1) rem).2.2) := by
  simp [withRetryAux, hsi, hretr]

theorem withRetryAux_calls_le {R : Type} (script : Nat → Except LLMError R)
    (jitter : Nat → Nat) (bd : Nat) :
    ∀ rem i, (withRetryAux script jitter bd i rem).2.1 ≤ i + rem + 1 := by
  intro rem
  induction rem with
  | zero =>
    intro i
    have hz : (withRetryAux script jitter bd i 0).2.1 = i + 1 := by
      cases hsi : script i <;> simp [withRetryAux, hsi]
    omega
  | succ rem ih =>
    intro i
    cases hsi : script i with
    | ok r =>
      have hz : (withRetryAux script jitter bd i (rem + 1)).2.1 = i + 1 := by
        rw [withRetryAux_ok script jitter bd i (rem + 1) r hsi]
      omega
    | error e =>
      cases hretr : retriable e with
      | false =>
        have hz : (withRetryAux script jitter bd i (rem + 1)).2.1 = i + 1 := by
          rw [withRetryAux_stop script jitter bd i (rem + 1) e hsi hretr]
        omega
      | true =>
        have hz : (withRetryAux script jitter bd i (rem + 1)).2.1 =
            (withRetryAux script jitter bd (i + 1) rem).2.1 := by
          rw [withRetryAux_retry script jitter bd i rem e hsi hretr]
        have hb := ih (i + 1)
        omega

/-! ## Retry-after cascade lemmas -/

theorem jsNumber_ne_nullish (s : String) : jsNumber s ≠ .nullish := by
  simp only [jsNumber]
  split_ifs <;> simp

theorem jsNullish_of_ne_nullish (a b : JsVal) (h : a ≠ .nullish) :
    jsNullish a b = a := by
  cases a with
  | nullish => exact absurd rfl h
  | nan => rfl
  | num n => rfl

theorem askLLMRetryAfterSec_hdr (e : LLMError) (h : String)
    (h1 : jsNullishOpt e.respHeaderRetryAfter e.headerRetryAfter = some h)
    (h2 : h ≠ "") :
    askLLMRetryAfterSec e = jsNumber h := by
  simp only [askLLMRetryAfterSec, h1]
  rw [if_pos h2]
  exact jsNullish_of_ne_nullish _ _ (jsNumber_ne_nullish h)

theorem askLLMRetryAfterSec_blank (e : LLMError)
    (hempty : ∀ h, jsNullishOpt e.respHeaderRetryAfter e.headerRetryAfter = some h →
      h = "") :
    askLLMRetryAfterSec e = jsNullish (retryAfterFromMsg e) (.num 30) := by
  have hpr : parseRetryAfter e = retryAfterFromMsg e := by
    unfold parseRetryAfter
    cases hr : e.respHeaderRetryAfter with
    | none => rfl
    | some h0 =>
      have h0e : h0 = "" := hempty h0 (by simp [jsNullishOpt, hr])
      subst h0e
      simp
  simp only [askLLMRetryAfterSec, hpr]
  cases hh : jsNullishOpt e.respHeaderRetryAfter e.headerRetryAfter with
  | none => simp [jsNullish]
  | some h0 =>
    have h0e : h0 = "" := hempty h0 hh
    subst h0e
    simp [jsNullish]

/-! ## C4 -/

/-- C4: on a 429 classified as rate-limit throttling, the operation
returns the rate-limit signal carrying the extracted retry-after value
and sets the cooldown deadline to now plus that duration, for every
prior deadline `cd` — including a later one, so the deadline is
unconditionally overwritten with no max-of-two merge (first conjunct).
The extracted duration comes from the response's `retry-after` header
when one is present and truthy (second conjunct, for an error `ehdr` in
that situation), else from the `try again in Ns` message pattern (third
conjunct, for an error `emsg` with no truthy header and a matching
message), else defaults to 30 seconds (last conjunct, for an error
`edef` with neither hint). -/
theorem rate_limit_retry_after_cascade
    (now : Nat) (cd : JsVal) (script : Nat → Except LLMError ChatResponse)
    (jitter : Nat → Nat) (e ehdr emsg edef : LLMError)
    (calls rsec n : Nat) (ds : List Nat) (h : String)
    (hrun : withRetryAux script jitter 800 0 2 = (.error e, calls, ds))
    (h429 : errStatus e = some 429)
    (hkind : classify429 e = "rate_limit")
    (hnum : askLLMRetryAfterSec e = .num rsec)
    (hh1 : jsNullishOpt ehdr.respHeaderRetryAfter ehdr.headerRetryAfter = some h)
    (hh2 : h ≠ "")
    (hm1 : ∀ h', jsNullishOpt emsg.respHeaderRetryAfter emsg.headerRetryAfter = some h' →
      h' = "")
    (hm2 : findTryAgain (emsg.message.getD "").toList = some n)
    (hd1 : ∀ h', jsNullishOpt edef.respHeaderRetryAfter edef.headerRetryAfter = some h' →
      h' = "")
    (hd2 : findTryAgain (edef.message.getD "").toList = none) :
    askLLMDispatch now cd script jitter =
      (.signal "rate_limit" 429 (some (.num rsec)), calls, .num (now + rsec * 1000)) ∧
    askLLMRetryAfterSec ehdr = jsNumber h ∧
    askLLMRetryAfterSec emsg = .num n ∧
    askLLMRetryAfterSec edef = .num 30 := by
  refine ⟨?_, askLLMRetryAfterSec_hdr ehdr h hh1 hh2, ?_, ?_⟩
  · simp only [askLLMDispatch, hrun]
    rw [if_pos h429, if_neg (by rw [hkind]; decide), hnum]
    rfl
  · rw [askLLMRetryAfterSec_blank emsg hm1]
    unfold retryAfterFromMsg
    rw [hm2]
    rfl
  · rw [askLLMRetryAfterSec_blank edef hd1]
    unfold retryAfterFromMsg
    rw [hd2]
    rfl

/-- C4 witness: a header hint of 7 seconds overwrites a prior deadline
of 999999999 with `0 + 7000`; `errRateMsg` exercises the message
pattern (20 s), `errRateBare` the 30-second default. -/
theorem rate_limit_retry_after_cascade_witness :
    askLLMDispatch 0 (.num 999999999) (scriptErr errRate7) noJitter =
      (.signal "rate_limit" 429 (some (.num 7)), 1, .num 7000) ∧
    askLLMRetryAfterSec errRate7 = jsNumber "7" ∧
    askLLMRetryAfterSec errRateMsg = .num 20 ∧
    askLLMRetryAfterSec errRateBare = .num 30 :=
  rate_limit_retry_after_cascade 0 (.num 999999999) (scriptErr errRate7) noJitter
    errRate7 errRate7 errRateMsg errRateBare 1 7 20 [] "7"
    rfl rfl rfl rfl rfl (by decide)
    (fun h' hc => by simp [errRateMsg, baseError, jsNullishOpt] at hc) rfl
    (fun h' hc => by simp [errRateBare, baseError, jsNullishOpt] at hc) rfl

/-! ## C5 -/

/-- C5: when the provider call throws a 429 on the first attempt (and
the error carries no timeout or connection-reset code), the retry loop
performs exactly one invocation and surfaces the error (first
conjunct), and the operation returns the structured throttle-or-quota
signal computed from that single attempt (remaining conjuncts). -/
theorem no_retry_on_429 (now : Nat) (cd : JsVal)
    (script : Nat → Except LLMError ChatResponse) (jitter : Nat → Nat)
    (e : LLMError)
    (h0 : script 0 = .error e) (h429 : errStatus e = some 429)
    (hc1 : e.code ≠ some "ETIMEDOUT") (hc2 : e.code ≠ some "ECONNRESET") :
    withRetryAux script jitter 800 0 2 = (.error e, 1, []) ∧
    (askLLMDispatch now cd script jitter).2.1 = 1 ∧
    (askLLMDispatch now cd script jitter).1 =
      (if classify429 e = "insufficient_quota" then
        .signal "insufficient_quota" 429 none
      else
        .signal "rate_limit" 429 (some (askLLMRetryAfterSec e))) := by
  have hretr : retriable e = false := by
    simp only [retriable, h429]
    simp [hc1, hc2]
    decide
  have hrun : withRetryAux script jitter 800 0 2 = (.error e, 1, []) :=
    withRetryAux_stop script jitter 800 0 2 e h0 hretr
  refine ⟨hrun, ?_, ?_⟩ <;>
    · simp only [askLLMDispatch, hrun]
      rw [if_pos h429]
      by_cases hq : classify429 e = "insufficient_quota" <;> simp [hq]

/-- C5 witness: a bare throttling 429 thrown on the first attempt. -/
theorem no_retry_on_429_witness :
    withRetryAux (scriptErr errRateBare) noJitter 800 0 2 =
      (.error errRateBare, 1, []) ∧
    (askLLMDispatch 0 (.num 0) (scriptErr errRateBare) noJitter).2.1 = 1 ∧
    (askLLMDispatch 0 (.num 0) (scriptErr errRateBare) noJitter).1 =
      (if classify429 errRateBare = "insufficient_quota" then
        .signal "insufficient_quota" 429 none
      else
        .signal "rate_limit" 429 (some (askLLMRetryAfterSec errRateBare))) :=
  no_retry_on_429 0 (.num 0) (scriptErr errRateBare) noJitter errRateBare
    rfl rfl (by simp [errRateBare, baseError]) (by simp [errRateBare, baseError])

/-! ## C6 -/

/-- C6: a 429 classified as quota exhaustion returns the
`insufficient_quota` signal with no retry-after hint and leaves the
cooldown deadline exactly as it was (first conjunct, for every prior
deadline `cd`).  The classifier declares quota exhaustion from the
machine-readable code/type field first (second conjunct, for any error
`e₂` whose code or type says so, regardless of its message), and
otherwise exactly when the lowercased message contains one of the
billing phrases (last conjunct, for any error `e₃` whose code and type
say nothing). -/
theorem quota_exhaustion_no_cooldown (now : Nat) (cd : JsVal)
    (script : Nat → Except LLMError ChatResponse) (jitter : Nat → Nat)
    (e e₂ e₃ : LLMError) (calls : Nat) (ds : List Nat)
    (hrun : withRetryAux script jitter 800 0 2 = (.error e, calls, ds))
    (h429 : errStatus e = some 429)
    (hq : classify429 e = "insufficient_quota")
    (hc2 : err429Code e₂ = "insufficient_quota" ∨ err429Type e₂ = "insufficient_quota")
    (hc3 : ¬(err429Code e₃ = "insufficient_quota" ∨
      err429Type e₃ = "insufficient_quota")) :
    askLLMDispatch now cd script jitter =
      (.signal "insufficient_quota" 429 none, calls, cd) ∧
    classify429 e₂ = "insufficient_quota" ∧
    (classify429 e₃ = "insufficient_quota" ↔
      (strHasSub (err429Msg e₃) "insufficient quota"
        || strHasSub (err429Msg e₃) "exceeded your current quota"
        || strHasSub (err429Msg e₃) "billing") = true) := by
  refine ⟨?_, ?_, ?_⟩
  · simp only [askLLMDispatch, hrun]
    rw [if_pos h429, if_pos hq]
  · simp only [classify429]
    rw [if_pos hc2]
  · simp only [classify429]
    rw [if_neg hc3]
    constructor
    · intro hgoal
      by_contra hb
      rw [if_neg (by simpa using hb)] at hgoal
      exact absurd hgoal (by decide)
    · intro hb
      rw [if_pos hb]

/-- C6 witness: a quota-exhaustion 429 with the machine-readable code
set, dispatched against a prior deadline of 424242 that stays
untouched; `errRateBare` exercises the message-only branch of the
classifier. -/
theorem quota_exhaustion_no_cooldown_witness :
    askLLMDispatch 0 (.num 424242) (scriptErr errQuota) noJitter =
      (.signal "insufficient_quota" 429 none, 1, .num 424242) ∧
    classify429 errQuota = "insufficient_quota" ∧
    (classify429 errRateBare = "insufficient_quota" ↔
      (strHasSub (err429Msg errRateBare) "insufficient quota"
        || strHasSub (err429Msg errRateBare) "exceeded your current quota"
        || strHasSub (err429Msg errRateBare) "billing") = true) :=
  quota_exhaustion_no_cooldown 0 (.num 424242) (scriptErr errQuota) noJitter
    errQuota errQuota errRateBare 1 []
    rfl rfl rfl (by decide) (by decide)

/-! ## C7 -/

/-- C7: with a script that throws 503 on the first two attempts and
succeeds on the third, the retry loop performs exactly 3 invocations,
returns the successful response, and sleeps the doubled backoff delays
`800 + jitter` and `1600 + jitter` in between (first conjunct); the
structured (JSON) completion operation then returns the result computed
from that successful response (second conjunct); the retry policy
retries only the transient statuses and the timeout/connection-reset
codes (third conjunct, for any error `e₃` the loop retries), and the
invocation count is always bounded by the attempt budget (last
conjunct, for any script `sc`). -/
theorem transient_retry_absorbs_503
    (now : Nat) (cd : JsVal) (script sc : Nat → Except LLMError ChatResponse)
    (jitter j : Nat → Nat) (e₁ e₂ e₃ : LLMError) (resp : ChatResponse)
    (i rem bd : Nat)
    (h0 : script 0 = .error e₁) (h1 : script 1 = .error e₂)
    (h2 : script 2 = .ok resp)
    (hs1 : errStatus e₁ = some 503) (hs2 : errStatus e₂ = some 503)
    (hret : retriable e₃ = true) :
    withRetryAux script jitter 800 0 2 =
      (.ok resp, 3, [800 + jitter 0, 1600 + jitter 1]) ∧
    askLLMJsonDispatch now cd script jitter =
      ((match jsonExtract (respText resp) with
        | some v => .obj v
        | none => .null), 3, cd) ∧
    ((∃ s, errStatus e₃ = some s ∧ s ∈ TRANSIENT_STATUSES) ∨
      e₃.code = some "ETIMEDOUT" ∨ e₃.code = some "ECONNRESET") ∧
    (withRetryAux sc j bd i rem).2.1 ≤ i + rem + 1 := by
  have hr1 : retriable e₁ = true := by
    simp [retriable, hs1]
    exact Or.inl (Or.inl (by decide))
  have hr2 : retriable e₂ = true := by
    simp [retriable, hs2]
    exact Or.inl (Or.inl (by decide))
  have hA : withRetryAux script jitter 800 2 0 = (.ok resp, 3, []) :=
    withRetryAux_ok script jitter 800 2 0 resp h2
  have hB : withRetryAux script jitter 800 1 1 =
      (.ok resp, 3, [800 * 2 ^ 1 + jitter 1]) := by
    rw [withRetryAux_retry script jitter 800 1 0 e₂ h1 hr2, hA]
  have hC : withRetryAux script jitter 800 0 2 =
      (.ok resp, 3, [800 * 2 ^ 0 + jitter 0, 800 * 2 ^ 1 + jitter 1]) := by
    rw [withRetryAux_retry script jitter 800 0 1 e₁ h0 hr1, hB]
  have hC' : withRetryAux script jitter 800 0 2 =
      (.ok resp, 3, [800 + jitter 0, 1600 + jitter 1]) := by
    rw [hC]
    norm_num
  refine ⟨hC', ?_, ?_, withRetryAux_calls_le sc j bd rem i⟩
  · simp only [askLLMJsonDispatch, hC']
  · simp only [retriable, Bool.or_eq_true] at hret
    rcases hret with (hst | hcode) | hcode2
    · left
      cases herr : errStatus e₃ with
      | none => rw [herr] at hst; simp at hst
      | some s =>
        rw [herr] at hst
        exact ⟨s, rfl, by simpa using hst⟩
    · right; left; simpa using hcode
    · right; right; simpa using hcode2

/-- C7 witness: the concrete 503-503-success script with zero jitter. -/
theorem transient_retry_absorbs_503_witness :
    withRetryAux script503 noJitter 800 0 2 =
      (.ok okResp, 3, [800 + noJitter 0, 1600 + noJitter 1]) ∧
    askLLMJsonDispatch 0 (.num 0) script503 noJitter =
      ((match jsonExtract (respText okResp) with
        | some v => .obj v
        | none => .null), 3, .num 0) ∧
    ((∃ s, errStatus err503 = some s ∧ s ∈ TRANSIENT_STATUSES) ∨
      err503.code = some "ETIMEDOUT" ∨ err503.code = some "ECONNRESET") ∧
    (withRetryAux script503 noJitter 800 0 2).2.1 ≤ 0 + 2 + 1 :=
  transient_retry_absorbs_503 0 (.num 0) script503 script503 noJitter noJitter
    err503 err503 err503 okResp 0 2 800
    rfl rfl rfl rfl rfl (by decide)

/-! ## C8 -/

/-- C8 counterexample: on the body `prefix text \x7b"a":1,"b":[2,3]\x7d `
(with the trailing space) the strict parse fails and the end-anchored
salvage regex cannot match either — the closing brace is not the final
character — so the salvage path yields nothing and the structured
completion operation returns null, not the parsed object. -/
theorem json_salvage_trailing_space_cex :
    jsonExtract salvageBodySp = none ∧
    jsonExtract salvageBodySp ≠ some salvageObj ∧
    askLLMJsonDispatch 0 (.num 0) (scriptOk (bodyResp salvageBodySp)) noJitter =
      (.null, 1, .num 0) := by
  refine ⟨rfl, ?_, rfl⟩
  rw [show jsonExtract salvageBodySp = none from rfl]
  simp

/-- C8 amended: on the body `prefix text \x7b"a":1,"b":[2,3]\x7d` with no
characters after the closing brace, strict parse fails, the
trailing-brace extraction returns the substring from the first opening
brace to the end, and the salvage path yields the object
`\x7b a: 1, b: [2, 3] \x7d`; with a trailing space the end-anchored
regex fails and the operation returns null instead. -/
theorem json_salvage_requires_trailing_brace :
    jsonParse salvageBody.toList = none ∧
    braceTailMatch salvageBody.toList =
      some ("\x7b\"a\":1,\"b\":[2,3]\x7d".toList) ∧
    jsonExtract salvageBody = some salvageObj ∧
    askLLMJsonDispatch 0 (.num 0) (scriptOk (bodyResp salvageBody)) noJitter =
      (.obj salvageObj, 1, .num 0) :=
  ⟨rfl, rfl, rfl, rfl⟩

/-! ## C9 -/

theorem waitFreeFrom_le (busySig : Nat → Bool) (start : Nat) :
    ∀ n elapsed, 8000 - elapsed ≤ n →
      waitFreeFrom busySig start elapsed ≤ start + max 8120 elapsed := by
  intro n
  induction n with
  | zero =>
    intro elapsed hle
    unfold waitFreeFrom
    rw [dif_neg (fun hcc => absurd hcc.2 (by omega))]
    exact Nat.add_le_add_left (Nat.le_max_right _ _) start
  | succ n ih =>
    intro elapsed hle
    unfold waitFreeFrom
    by_cases hc : busySig (start + elapsed) = true ∧ elapsed < 8000
    · rw [dif_pos hc]
      have hlt := hc.2
      have h2 := ih (elapsed + 120) (by omega)
      have hm : max 8120 (elapsed + 120) = 8120 := Nat.max_eq_left (by omega)
      rw [hm] at h2
      exact le_trans h2 (Nat.add_le_add_left (Nat.le_max_left _ _) start)
    · rw [dif_neg hc]
      exact Nat.add_le_add_left (Nat.le_max_right _ _) start

/-- C9: the serialization latch is cleared on every exit path of the
guard — including when the guarded call throws — and the guarded call's
outcome is passed through unchanged (first two conjuncts, for an
arbitrary `fn` of either shape); a subsequent acquire that finds the
latch free proceeds immediately, with no wait (third conjunct); and an
acquire attempt never waits past the ~8-second ceiling regardless of the
latch signal — it then proceeds anyway rather than failing (last
conjunct: the wait ends by `start + 8120` even if the latch never
frees). -/
theorem llm_gate_latch_released {E A : Type} (busySig : Nat → Bool)
    (start : Nat) (fn : Except E A) :
    (withLLMGate busySig start fn).2.1 = false ∧
    (withLLMGate busySig start fn).2.2 = fn ∧
    waitFreeFrom (fun _ => false) (withLLMGate busySig start fn).1 0 =
      (withLLMGate busySig start fn).1 ∧
    waitFreeFrom busySig start 0 ≤ start + 8120 := by
  refine ⟨?_, ?_, ?_, ?_⟩
  · cases fn <;> rfl
  · cases fn <;> rfl
  · unfold waitFreeFrom
    rw [dif_neg (by simp)]
    omega
  · have h := waitFreeFrom_le busySig start 8000 0 (by omega)
    have hm : max 8120 0 = 8120 := by omega
    rw [hm] at h
    exact h

/-! ## C10 -/

/-- C10: when the provider responds successfully but the message content
is absent, empty or whitespace-only, both the free-form and the vision
operation return null — the very value both return for an unclassified
(non-429) failure — so the caller cannot tell an empty completion from
an opaque failure. -/
theorem blank_content_indistinguishable_from_failure
    (now : Nat) (cd : JsVal) (resp : ChatResponse)
    (scriptA scriptB : Nat → Except LLMError ChatResponse) (jitter : Nat → Nat)
    (e : LLMError) (calls : Nat) (ds : List Nat)
    (hblank : respBlank resp = true)
    (hA : scriptA 0 = .ok resp)
    (hB : withRetryAux scriptB jitter 800 0 2 = (.error e, calls, ds))
    (hne : errStatus e ≠ some 429) :
    askLLMDispatch now cd scriptA jitter = (.null, 1, cd) ∧
    askLLMVisionDispatch now cd scriptA jitter = (.null, 1, cd) ∧
    askLLMDispatch now cd scriptB jitter = (.null, calls, cd) ∧
    askLLMVisionDispatch now cd scriptB jitter = (.null, calls, cd) := by
  have hnull : respContentOrNull resp = none := by
    unfold respContentOrNull
    cases hc : contentOfResp resp with
    | none => rfl
    | some s =>
      unfold respBlank at hblank
      rw [hc] at hblank
      have hb : jsTrim s = "" := by simpa using hblank
      show (if jsTrim s = "" then none else some (jsTrim s)) = (none : Option String)
      rw [if_pos hb]
  have hrunA : withRetryAux scriptA jitter 800 0 2 = (.ok resp, 1, []) :=
    withRetryAux_ok scriptA jitter 800 0 2 resp hA
  refine ⟨?_, ?_, ?_, ?_⟩
  · simp only [askLLMDispatch, hrunA, hnull]
  · simp only [askLLMVisionDispatch, hrunA, hnull]
  · simp only [askLLMDispatch, hB]
    rw [if_neg hne]
  · simp only [askLLMVisionDispatch, hB]
    rw [if_neg hne]

/-- C10 witness: a whitespace-only completion and a 400 failure both
come back as null from the free-form and the vision operation. -/
theorem blank_content_indistinguishable_from_failure_witness :
    askLLMDispatch 0 (.num 0) (scriptOk blankResp) noJitter =
      (.null, 1, .num 0) ∧
    askLLMVisionDispatch 0 (.num 0) (scriptOk blankResp) noJitter =
      (.null, 1, .num 0) ∧
    askLLMDispatch 0 (.num 0) (scriptErr err400) noJitter =
      (.null, 1, .num 0) ∧
    askLLMVisionDispatch 0 (.num 0) (scriptErr err400) noJitter =
      (.null, 1, .num 0) :=
  blank_content_indistinguishable_from_failure 0 (.num 0) blankResp
    (scriptOk blankResp) (scriptErr err400) noJitter err400 1 []
    rfl rfl rfl (by decide)

end LlmGate
